import Mathlib

/-!
# Verification of `scripts/python/ingest_disney_dataset.py`

Shallow embedding of the ingest script for the Disney "island" dataset.
The script discovers `.obj` files (`get_asset_objs`), imports each one into a
fresh Maya scene (`import_asset_obj`), rebuilds the transform hierarchy from a
`.hier` JSON sidecar (`rebuild_asset_hierarchy`), and exports the result as an
Alembic cache (`export_asset_abc`).

The host application (Maya) is modelled by a `Host` structure of abstract
functions: the parsed contents of `.hier` files, the nodes that importing a
given `.obj` produces, directory listings and directory-existence checks.  The Maya
scene graph is modelled as a `Scene`: a list of node names plus an association
list of parent links, where the most recent link for a child is the one in
force.  Python string primitives (`str.replace`, `str.split`, `sorted`,
`os.path.join`, `os.path.dirname`, `os.path.basename`, glob over a `*.obj`
pattern) are re-implemented as structurally recursive Lean functions so that
every definition evaluates inside the kernel.
-/

/-- Test whether `pat` is an initial segment of `s` (character lists). -/
def startsWithList : List Char → List Char → Bool
  | [], _ => true
  | _ :: _, [] => false
  | p :: ps, c :: cs => p == c && startsWithList ps cs

/-- Python `s.startswith(pat)`. -/
def strStartsWith (s pat : String) : Bool :=
  startsWithList pat.data s.data

/-- Python `s.endswith(pat)`. -/
def strEndsWith (s pat : String) : Bool :=
  startsWithList pat.data.reverse s.data.reverse

/-- Fuelled core of Python `str.replace`: replaces each non-overlapping
occurrence of `pat` left to right, for non-empty `pat`.  Each step consumes at
least one character, so fuel equal to the length of the input suffices. -/
def pyReplaceFuel (pat rep : List Char) : Nat → List Char → List Char
  | 0, s => s
  | _ + 1, [] => []
  | fuel + 1, c :: cs =>
    if startsWithList pat (c :: cs) then
      rep ++ pyReplaceFuel pat rep fuel (List.drop (pat.length - 1) cs)
    else
      c :: pyReplaceFuel pat rep fuel cs

/-- Python `s.replace(pat, rep)` for non-empty `pat` (all occurrences,
left to right, non-overlapping). -/
def pyReplace (s pat rep : String) : String :=
  ⟨pyReplaceFuel pat.data rep.data s.data.length s.data⟩

/-- Accumulator-style splitting of a character list on a separator
character. -/
def splitCharAux (sep : Char) : List Char → List Char → List (List Char)
  | [], acc => [acc.reverse]
  | c :: cs, acc =>
    if c == sep then acc.reverse :: splitCharAux sep cs [] else splitCharAux sep cs (c :: acc)

/-- Python `s.split('|')`: the result is never empty, and an empty string
splits to `[""]`. -/
def pySplitPipe (s : String) : List String :=
  (splitCharAux '|' s.data []).map (fun l => String.mk l)

/-- Lexicographic comparison of character lists by code point, mirroring
Python string comparison. -/
def leChars : List Char → List Char → Bool
  | [], _ => true
  | _ :: _, [] => false
  | a :: as, b :: bs => if a = b then leChars as bs else decide (a < b)

/-- Python `s <= t` on strings. -/
def strLe (x y : String) : Bool :=
  leChars x.data y.data

/-- Insert a string into an already sorted list (insertion sort step). -/
def insertStr (x : String) : List String → List String
  | [] => [x]
  | y :: ys => if strLe x y then x :: y :: ys else y :: insertStr x ys

/-- Python `sorted` on a list of strings.  Equal strings are identical, so any
correct sort yields the same list as CPython's stable sort. -/
def pySorted : List String → List String
  | [] => []
  | x :: xs => insertStr x (pySorted xs)

/-- POSIX `os.path.join(a, b)` for a single pair of components. -/
def osPathJoin (a b : String) : String :=
  if strStartsWith b "/" then b
  else if a = "" || strEndsWith a "/" then a ++ b
  else a ++ "/" ++ b

/-- POSIX `os.path.split(p)`: the head is everything up to the final slash
(with trailing slashes stripped unless the head is all slashes) and the tail
is the final component. -/
def osSplitPath (p : String) : String × String :=
  let cs := p.data
  let tailLen := (cs.reverse.takeWhile (fun c => c ≠ '/')).length
  let i := cs.length - tailLen
  let head := cs.take i
  let tl := cs.drop i
  let head2 :=
    if head.all (fun c => c = '/') then head
    else (head.reverse.dropWhile (fun c => c = '/')).reverse
  (⟨head2⟩, ⟨tl⟩)

/-- POSIX `os.path.dirname`. -/
def osDirname (p : String) : String :=
  (osSplitPath p).1

/-- POSIX `os.path.basename`. -/
def osBasename (p : String) : String :=
  (osSplitPath p).2

/-- Exceptions the script can raise: an out-of-range list index
(`hier_split[-1]` / `hier_split[0]` on an empty list), a failed
`pm.PyNode` lookup outside any `try`, and the `NameError` for returning the
unbound `root_par_node`. -/
inductive PyExc
  | indexError
  | mayaError
  | nameError
deriving DecidableEq

instance {ε α : Type} [DecidableEq ε] [DecidableEq α] : DecidableEq (Except ε α) := fun a b =>
  match a, b with
  | .error e, .error f => decidable_of_iff (e = f) (by simp)
  | .error _, .ok _ => isFalse (by simp)
  | .ok _, .error _ => isFalse (by simp)
  | .ok x, .ok y => decidable_of_iff (x = y) (by simp)

/-- Maya scene graph model: the names of the nodes present, and parent links
as an association list where the entry closest to the head is the one in
force for a given child. -/
structure Scene where
  nodes : List String
  parents : List (String × String)
deriving DecidableEq

/-- Scene with no nodes, as produced by `pm.newFile(f=True)`. -/
def emptyScene : Scene := ⟨[], []⟩

/-- Whether a node of the given name exists (`pm.PyNode` lookup succeeds). -/
def Scene.hasNode (s : Scene) (n : String) : Bool :=
  decide (n ∈ s.nodes)

/-- Effect of `pm.createNode('transform', n=name)` when no clash exists: the
node is appended at root level. -/
def Scene.createTransform (s : Scene) (n : String) : Scene :=
  ⟨s.nodes ++ [n], s.parents⟩

/-- Effect of `child.setParent(par)`: record the new link; the most recent
link for a child shadows any earlier one. -/
def Scene.setParent (s : Scene) (child par : String) : Scene :=
  ⟨s.nodes, (child, par) :: s.parents⟩

/-- Current parent of a node, if any. -/
def Scene.getParent (s : Scene) (n : String) : Option String :=
  (s.parents.find? (fun q => q.1 == n)).map (fun q => q.2)

/-- Full DAG path of a node, as returned by Maya's `fullPath()`:
`"|grandparent|parent|node"`.  Fuelled by the number of nodes. -/
def fullPathAux (s : Scene) : Nat → String → String
  | 0, n => "|" ++ n
  | fuel + 1, n =>
    match s.getParent n with
    | none => "|" ++ n
    | some p => fullPathAux s fuel p ++ "|" ++ n

/-- Full DAG path of a node in the scene. -/
def Scene.fullPath (s : Scene) (n : String) : String :=
  fullPathAux s s.nodes.length n

/-- Host-application and filesystem facts the script consumes: the parsed
JSON contents of each `.hier` file, the nodes and parent links an
`importFile` of a given `.obj` adds to the scene, `os.listdir`, and
`os.path.exists` for directories. -/
structure Host where
  hierData : String → List (String × String)
  objNodes : String → List String
  objParents : String → List (String × String)
  entries : String → List String
  dirExists : String → Bool

/-- Result of `glob.glob(os.path.join(dir, '*.obj'))`: entries of `dir`
ending in `.obj` and not hidden (glob's `*` never matches a leading dot),
each joined onto `dir`. -/
def globObjs (env : Host) (dir : String) : List String :=
  ((env.entries dir).filter (fun f => strEndsWith f ".obj" && !(strStartsWith f "."))).map
    (fun f => osPathJoin dir f)

/-- Embedding of `get_asset_objs` (source lines 28-49): for each entry of
`obj_dir`, glob `*.obj` in the asset directory and in its `archives`
subdirectory, sort the two together, and append to the running list. -/
def get_asset_objs (env : Host) (obj_dir : String) : List String :=
  (env.entries obj_dir).foldl
    (fun obj_files asset =>
      let asset_dir := osPathJoin obj_dir asset
      let archive_dir := osPathJoin asset_dir "archives"
      let asset_objs := globObjs env asset_dir
      let archive_objs := globObjs env archive_dir
      obj_files ++ pySorted (asset_objs ++ archive_objs))
    []

/-- Effect of `pm.newFile(f=True)`: the current scene is discarded and an
empty scene takes its place. -/
def newFile (_s : Scene) : Scene :=
  emptyScene

/-- Effect of `pm.importFile(obj_file, type='OBJ', ...)`: the nodes and parent
links the host produces for this `.obj` are added to the scene. -/
def importFile (env : Host) (s : Scene) (obj_file : String) : Scene :=
  ⟨s.nodes ++ env.objNodes obj_file, s.parents ++ env.objParents obj_file⟩

/-- Embedding of `import_asset_obj` (source lines 52-67): force a new empty
scene, import the `.obj`, return the obj path. -/
def import_asset_obj (env : Host) (s : Scene) (obj_file : String) : Scene × String :=
  (importFile env (newFile s) obj_file, obj_file)

/-- Lookup-or-create pattern used twice in the inner loop of
`rebuild_asset_hierarchy` (source lines 95-102): `pm.PyNode(name)` in a
`try`, with `pm.createNode('transform', n=name)` on failure.  The inner
`for index, hier_elem in reversed(list(enumerate(hier_split)))` loop pairs
each index with `hier_split[index]`, so elements are recovered by
indexing. -/
def lookupOrCreate (s : Scene) (name : String) : Scene :=
  if s.hasNode name then s else s.createTransform name

/-- Step of the inner loop at a single index: when `index != 0`, look up or
create the element node and the node of the preceding element, then parent
the former under the latter (source lines 93-103). -/
def hierStep (l : List String) (s : Scene) (index : Nat) : Scene :=
  if index ≠ 0 then
    (lookupOrCreate (lookupOrCreate s (l.getD index "")) (l.getD (index - 1) "")).setParent
      (l.getD index "") (l.getD (index - 1) "")
  else s

/-- Inner loop of `rebuild_asset_hierarchy`: indices are visited from
`len - 1` down to `0`, with `0` skipped inside `hierStep`. -/
def rebuildInner (s : Scene) (hier_split : List String) : Scene :=
  ((List.range hier_split.length).reverse).foldl (hierStep hier_split) s

/-- Recursive presentation of the inner loop: `goIdx l n s` performs the loop
body at indices `n - 1`, `n - 2`, …, `0`, in that order. -/
def goIdx (l : List String) : Nat → Scene → Scene
  | 0, s => s
  | n + 1, s => goIdx l n (hierStep l s n)

/-- Message printed when the `try` around the model lookup fails
(source line 109). -/
def modelMissingMsg : String :=
  "Model is missing! First import it into your scene."

/-- Body of the outer `for model, hier in hier_data.iteritems()` loop
(source lines 87-111), for one entry. Returns the lines printed and either an
exception or the scene together with `root_par` (the value later bound to
`root_par_node`).  `hier_split` is `hier.split('|')` with the first element
popped; indexing it at `-1` or `0` raises `IndexError` when it is empty.
The `try` at lines 104-108 succeeds exactly when both the model node and the
`model_par` node exist; on failure the message is printed, `model_node` is
set to `None` (unobservable here) and nothing is rolled back.  The final
`pm.PyNode(root_par)` at line 111 is outside any `try`, so a missing
`root_par` node raises. -/
def processEntry (s : Scene) (model hier : String) : List String × Except PyExc (Scene × String) :=
  let hier_split := (pySplitPipe hier).tail
  match hier_split.getLast?, hier_split.head? with
  | some model_par, some root_par =>
    let s1 := rebuildInner s hier_split
    if s1.hasNode model && s1.hasNode model_par then
      let s2 := s1.setParent model model_par
      if s2.hasNode root_par then ([], .ok (s2, root_par)) else ([], .error .mayaError)
    else
      if s1.hasNode root_par then
        ([modelMissingMsg], .ok (s1, root_par))
      else
        ([modelMissingMsg], .error .mayaError)
  | _, _ => ([], .error .indexError)

/-- Outer loop of `rebuild_asset_hierarchy` over the parsed `.hier` entries,
threading the scene, the printed lines, and the current binding of
`root_par_node` (`none` while it is still unbound). -/
def rebuildLoop (s : Scene) (root : Option String) (acc : List String) :
    List (String × String) → List String × Except PyExc (Scene × Option String)
  | [] => (acc, .ok (s, root))
  | (model, hier) :: rest =>
    match processEntry s model hier with
    | (out, .error e) => (acc ++ out, .error e)
    | (out, .ok (s2, r)) => rebuildLoop s2 (some r) (acc ++ out) rest

/-- Loop-and-return part of `rebuild_asset_hierarchy` applied to already
parsed `.hier` data: run the outer loop, then return `root_par_node`, which
raises `NameError` when the loop body never ran. -/
def rebuildFromData (s : Scene) (hier_data : List (String × String)) :
    List String × Except PyExc (Scene × String) :=
  match rebuildLoop s none [] hier_data with
  | (out, .ok (s2, some r)) => (out, .ok (s2, r))
  | (out, .ok (_, none)) => (out, .error .nameError)
  | (out, .error e) => (out, .error e)

/-- Sidecar path computed at source line 83:
`hier_json = obj_file.replace('.obj', '.hier')` (all occurrences). -/
def hierJsonPath (obj_file : String) : String :=
  pyReplace obj_file ".obj" ".hier"

/-- Embedding of `rebuild_asset_hierarchy` (source lines 70-113): read and
parse the sidecar at `hierJsonPath obj_file`, then run the rebuild loop. -/
def rebuild_asset_hierarchy (env : Host) (s : Scene) (obj_file : String) :
    List String × Except PyExc (Scene × String) :=
  rebuildFromData s (env.hierData (hierJsonPath obj_file))

/-- Observable outcome of `export_asset_abc`: the computed destination
directory and file, the `os.makedirs` calls issued, the `AbcExport` job
strings issued, and the returned path. -/
structure ExportResult where
  abcDir : String
  abcFile : String
  madeDirs : List String
  abcCalls : List String
  ret : String
deriving DecidableEq

/-- Python `' '.join(args)`. -/
def joinWith (sep : String) : List String → String
  | [] => ""
  | [x] => x
  | x :: y :: xs => x ++ sep ++ joinWith sep (y :: xs)

/-- Embedding of `export_asset_abc` (source lines 116-147): derive the `.abc`
path by `obj_dir.replace('obj', 'abc')` and `obj_name.replace('.obj', '.abc')`,
create the destination directory when absent, and issue a single `AbcExport`
job built from five fixed flags plus `-root` and `-file`.  The `pm.select`
call has no observable effect here. -/
def export_asset_abc (env : Host) (s : Scene) (obj_file : String) (root_node : String) :
    ExportResult :=
  let obj_dir := osDirname obj_file
  let obj_name := osBasename obj_file
  let abc_dir := pyReplace obj_dir "obj" "abc"
  let abc_name := pyReplace obj_name ".obj" ".abc"
  let abc_file := osPathJoin abc_dir abc_name
  let madeDirs := if env.dirExists abc_dir then [] else [abc_dir]
  let root_node_name := s.fullPath root_node
  let abc_args := ["-frameRange 1 1", "-uvWrite", "-worldSpace", "-writeUVSets",
    "-dataFormat ogawa", "-root " ++ root_node_name, "-file " ++ abc_file]
  let abc_arg := joinWith " " abc_args
  ⟨abc_dir, abc_file, madeDirs, [abc_arg], abc_file⟩

/-- The five flags every `AbcExport` job starts with. -/
def abcFixedFlags : String :=
  "-frameRange 1 1 -uvWrite -worldSpace -writeUVSets -dataFormat ogawa"

/-- Events observable from the top-level loop, one per host-API phase. -/
inductive Event
  | imported (obj : String)
  | rebuilt (obj : String) (root : String)
  | exported (obj : String) (abc : String)
deriving DecidableEq

/-- Outcome of running the top-level loop: the event trace, the final scene,
and the exception that aborted the loop, if any. -/
structure RunResult where
  events : List Event
  final : Scene
  err : Option PyExc
deriving DecidableEq

/-- Embedding of the top-level loop (source lines 154-158): for each obj
file, import it, rebuild its hierarchy, export the Alembic cache; an uncaught
exception aborts the whole loop. -/
def runAssets (env : Host) : Scene → List String → RunResult
  | s, [] => ⟨[], s, none⟩
  | s, obj :: rest =>
    let s1 := (import_asset_obj env s obj).1
    match rebuild_asset_hierarchy env s1 obj with
    | (_out, .error e) => ⟨[.imported obj], s1, some e⟩
    | (_out, .ok (s2, root)) =>
      let ex := export_asset_abc env s2 obj root
      let res := runAssets env s2 rest
      ⟨.imported obj :: .rebuilt obj root :: .exported obj ex.abcFile :: res.events,
        res.final, res.err⟩

/-- Root directory hard-coded at source line 151. -/
def island_root_dir : String :=
  "/home/sshrestha/workspace/library/disney_datasets/island"

/-- Embedding of the whole module body (source lines 151-158). -/
def scriptMain (env : Host) : RunResult :=
  runAssets env emptyScene (get_asset_objs env (osPathJoin island_root_dir "obj"))

/-- Scene in which `rebuild_asset_hierarchy` runs for a given obj file: each
iteration imports into the empty scene. -/
def sceneAfterImport (env : Host) (obj : String) : Scene :=
  (import_asset_obj env emptyScene obj).1

/-- Whether the rebuild phase for an obj file completes without an uncaught
exception. -/
def rebuildOk (env : Host) (obj : String) : Bool :=
  match (rebuild_asset_hierarchy env (sceneAfterImport env obj) obj).2 with
  | .ok _ => true
  | .error _ => false

/-- Events produced for a single obj file processed on its own. -/
def assetEvents (env : Host) (obj : String) : List Event :=
  (runAssets env emptyScene [obj]).events

/-- Modelled from the spec: the sidecar path read literally from the words
"replacing the '.obj' suffix with '.hier' in the obj file's own path" —
strip a final `.obj` and append `.hier`.  Compared against the source's
`hierJsonPath`, which replaces every occurrence. -/
def specHierSidecar (p : String) : String :=
  if strEndsWith p ".obj" then String.mk (p.data.take (p.data.length - 4)) ++ ".hier" else p

/-- Inert host used to instantiate universally quantified statements at a
concrete input. -/
def host0 : Host :=
  ⟨fun _ => [], fun _ => [], fun _ => [], fun _ => [], fun _ => false⟩

/-- Concrete host for exercising `get_asset_objs`: one asset directory
holding an obj file, a stray text file, and an `archives` obj. -/
def env0 : Host :=
  ⟨fun _ => [], fun _ => [], fun _ => [],
    fun p =>
      if p = "d" then ["asset1"]
      else if p = "d/asset1" then ["x.obj", "readme.txt"]
      else if p = "d/asset1/archives" then ["y.obj"] else [],
    fun _ => false⟩

/-- Concrete host whose `.hier` sidecar for `/x/a.obj` parents model `m`
under `|A`. -/
def envA : Host :=
  ⟨fun p => if p = "/x/a.hier" then [("m", "|A")] else [], fun _ => ["m"], fun _ => [],
    fun _ => [], fun _ => false⟩

/-- Variant of `envA` that differs everywhere except in the sidecar data. -/
def envB : Host :=
  ⟨envA.hierData, fun _ => ["m", "Z"], fun _ => [("Z", "m")], fun _ => ["w"], fun _ => true⟩

/-- Concrete host on which every rebuild succeeds: each import produces node
`m` and each sidecar parents `m` under `|A|B`. -/
def envC4 : Host :=
  ⟨fun _ => [("m", "|A|B")], fun _ => ["m"], fun _ => [], fun _ => [], fun _ => true⟩

/-! ## Helper lemmas about the scene model -/

theorem strData_append (a b : String) : (a ++ b).data = a.data ++ b.data := rfl

theorem hasNode_iff (s : Scene) (n : String) : s.hasNode n = true ↔ n ∈ s.nodes := by
  simp [Scene.hasNode]

theorem getParent_createTransform (s : Scene) (n c : String) :
    (s.createTransform n).getParent c = s.getParent c := rfl

theorem hasNode_setParent (s : Scene) (a b c : String) :
    (s.setParent a b).hasNode c = s.hasNode c := rfl

theorem nodes_setParent (s : Scene) (a b : String) :
    (s.setParent a b).nodes = s.nodes := rfl

theorem getParent_setParent (s : Scene) (a b c : String) :
    (s.setParent a b).getParent c = if c = a then some b else s.getParent c := by
  simp only [Scene.getParent, Scene.setParent, List.find?]
  by_cases h : c = a
  · subst h; simp
  · have hb : (a == c) = false := by simp [Ne.symm h]
    simp [hb, h]

theorem getParent_lookupOrCreate (s : Scene) (n c : String) :
    (lookupOrCreate s n).getParent c = s.getParent c := by
  unfold lookupOrCreate; split <;> rfl

theorem nodes_lookupOrCreate_sub (s : Scene) (n : String) :
    s.nodes ⊆ (lookupOrCreate s n).nodes := by
  unfold lookupOrCreate; split
  · exact fun _ h => h
  · exact fun c hc => List.mem_append_left _ hc

theorem mem_nodes_lookupOrCreate_self (s : Scene) (n : String) :
    n ∈ (lookupOrCreate s n).nodes := by
  unfold lookupOrCreate; split
  · next h => exact (hasNode_iff s n).mp h
  · exact List.mem_append_right _ (List.mem_singleton.mpr rfl)

theorem hierStep_zero (l : List String) (s : Scene) : hierStep l s 0 = s := by
  simp [hierStep]

theorem nodes_hierStep_sub (l : List String) (s : Scene) (i : Nat) :
    s.nodes ⊆ (hierStep l s i).nodes := by
  unfold hierStep; split
  · intro c hc
    rw [nodes_setParent]
    exact nodes_lookupOrCreate_sub _ _ (nodes_lookupOrCreate_sub _ _ hc)
  · exact fun _ h => h

theorem mem_nodes_hierStep_child (l : List String) (s : Scene) (i : Nat) (hi : i ≠ 0) :
    l.getD i "" ∈ (hierStep l s i).nodes := by
  unfold hierStep
  rw [if_pos hi, nodes_setParent]
  exact nodes_lookupOrCreate_sub _ _ (mem_nodes_lookupOrCreate_self _ _)

theorem mem_nodes_hierStep_par (l : List String) (s : Scene) (i : Nat) (hi : i ≠ 0) :
    l.getD (i - 1) "" ∈ (hierStep l s i).nodes := by
  unfold hierStep
  rw [if_pos hi, nodes_setParent]
  exact mem_nodes_lookupOrCreate_self _ _

theorem getParent_hierStep_ne (l : List String) (s : Scene) (i : Nat) (c : String)
    (h : c ≠ l.getD i "") : (hierStep l s i).getParent c = s.getParent c := by
  unfold hierStep; split
  · rw [getParent_setParent, if_neg h, getParent_lookupOrCreate, getParent_lookupOrCreate]
  · rfl

theorem getParent_hierStep_self (l : List String) (s : Scene) (i : Nat) (hi : i ≠ 0) :
    (hierStep l s i).getParent (l.getD i "") = some (l.getD (i - 1) "") := by
  unfold hierStep
  rw [if_pos hi, getParent_setParent, if_pos rfl]

theorem foldl_range_reverse_eq_goIdx (l : List String) :
    ∀ (n : Nat) (s : Scene), ((List.range n).reverse).foldl (hierStep l) s = goIdx l n s := by
  intro n
  induction n with
  | zero => intro s; rfl
  | succ n ih =>
    intro s
    rw [List.range_succ, List.reverse_append]
    simpa [goIdx] using ih (hierStep l s n)

theorem rebuildInner_eq_goIdx (s : Scene) (l : List String) :
    rebuildInner s l = goIdx l l.length s :=
  foldl_range_reverse_eq_goIdx l l.length s

theorem nodes_goIdx_sub (l : List String) :
    ∀ (n : Nat) (s : Scene), s.nodes ⊆ (goIdx l n s).nodes := by
  intro n
  induction n with
  | zero => exact fun s _ h => h
  | succ n ih =>
    intro s c hc
    exact ih (hierStep l s n) (nodes_hierStep_sub l s n hc)

theorem mem_nodes_goIdx_child (l : List String) :
    ∀ (n : Nat) (s : Scene) (i : Nat), 0 < i → i < n → l.getD i "" ∈ (goIdx l n s).nodes := by
  intro n
  induction n with
  | zero => intro s i _ h; omega
  | succ n ih =>
    intro s i hi hin
    rcases Nat.lt_or_ge i n with h | h
    · exact ih (hierStep l s n) i hi h
    · have hieq : i = n := by omega
      subst hieq
      exact nodes_goIdx_sub l i _ (mem_nodes_hierStep_child l s i (by omega))

theorem mem_nodes_goIdx_par (l : List String) :
    ∀ (n : Nat) (s : Scene) (i : Nat), 0 < i → i < n → l.getD (i - 1) "" ∈ (goIdx l n s).nodes := by
  intro n
  induction n with
  | zero => intro s i _ h; omega
  | succ n ih =>
    intro s i hi hin
    rcases Nat.lt_or_ge i n with h | h
    · exact ih (hierStep l s n) i hi h
    · have hieq : i = n := by omega
      subst hieq
      exact nodes_goIdx_sub l i _ (mem_nodes_hierStep_par l s i (by omega))

theorem getParent_goIdx_preserve (l : List String) :
    ∀ (n : Nat) (s : Scene) (c : String), (∀ j, 0 < j → j < n → l.getD j "" ≠ c) →
      (goIdx l n s).getParent c = s.getParent c := by
  intro n
  induction n with
  | zero => intro s c _; rfl
  | succ n ih =>
    intro s c h
    rw [goIdx, ih (hierStep l s n) c fun j hj hjn => h j hj (by omega)]
    rcases Nat.eq_zero_or_pos n with h0 | h0
    · subst h0; rw [hierStep_zero]
    · exact getParent_hierStep_ne l s n c fun hc => h n h0 (by omega) hc.symm

theorem getD_mem {α : Type} (d : α) :
    ∀ (l : List α) (i : Nat), i < l.length → l.getD i d ∈ l := by
  intro l
  induction l with
  | nil => intro i h; simp at h
  | cons a t ih =>
    intro i h
    cases i with
    | zero => exact List.mem_cons_self a t
    | succ i => exact List.mem_cons_of_mem a (ih i (by simpa using h))

theorem nodup_getD_ne {α : Type} (d : α) :
    ∀ (l : List α), l.Nodup → ∀ i j, i < l.length → j < l.length → i ≠ j →
      l.getD i d ≠ l.getD j d := by
  intro l
  induction l with
  | nil => intro _ i j h; simp at h
  | cons a t ih =>
    intro hnd i j hi hj hij
    rw [List.nodup_cons] at hnd
    cases i with
    | zero =>
      cases j with
      | zero => omega
      | succ j =>
        intro heq
        simp only [List.getD_cons_zero, List.getD_cons_succ] at heq
        exact hnd.1 (by rw [heq]; exact getD_mem d t j (by simpa using hj))
    | succ i =>
      cases j with
      | zero =>
        intro heq
        simp only [List.getD_cons_zero, List.getD_cons_succ] at heq
        exact hnd.1 (by rw [← heq]; exact getD_mem d t i (by simpa using hi))
      | succ j =>
        exact ih hnd.2 i j (by simpa using hi) (by simpa using hj) (by omega)

theorem getParent_goIdx_elem (l : List String) (hnd : l.Nodup) :
    ∀ (n : Nat), n ≤ l.length → ∀ (s : Scene) (i : Nat), 0 < i → i < n →
      (goIdx l n s).getParent (l.getD i "") = some (l.getD (i - 1) "") := by
  intro n
  induction n with
  | zero => intro _ s i _ h; omega
  | succ n ih =>
    intro hn s i hi hin
    rcases Nat.lt_or_ge i n with h | h
    · exact ih (by omega) (hierStep l s n) i hi h
    · have hieq : i = n := by omega
      subst hieq
      rw [goIdx, getParent_goIdx_preserve l i _ _
        (fun j hj hjn => nodup_getD_ne "" l hnd j i (by omega) (by omega) (by omega))]
      exact getParent_hierStep_self l s i (by omega)


/-! ## Claim theorems: export and statelessness -/

/-- C3: `export_asset_abc` invokes the host's `AbcExport` command exactly
once, and the job string opens with the same five fixed flags
(`-frameRange 1 1 -uvWrite -worldSpace -writeUVSets -dataFormat ogawa`) on
every call, identical across all inputs, followed only by the per-call
`-root` and `-file` arguments. -/
theorem c3_export_fixed_flags (env : Host) (s : Scene) (o r : String) :
    (export_asset_abc env s o r).abcCalls =
      [abcFixedFlags ++ " -root " ++ s.fullPath r ++ " -file " ++
        (export_asset_abc env s o r).abcFile] ∧
    (export_asset_abc env s o r).abcCalls.length = 1 := by
  refine ⟨?_, rfl⟩
  refine congrArg (fun x => [x]) ?_
  apply String.ext
  show (joinWith " " ["-frameRange 1 1", "-uvWrite", "-worldSpace", "-writeUVSets",
    "-dataFormat ogawa", "-root " ++ Scene.fullPath _ r,
    "-file " ++ (export_asset_abc env s o r).abcFile]).data = _
  simp only [joinWith, strData_append, List.append_assoc]
  rfl

/-- C6: the exported Alembic path is the obj path with `obj` replaced by
`abc` in the directory part and `.obj` replaced by `.abc` in the file name;
the destination directory is created exactly when it does not exist, and the
function returns the `.abc` path. -/
theorem c6_abc_destination (env : Host) (s : Scene) (o r : String) :
    (export_asset_abc env s o r).ret =
      osPathJoin (pyReplace (osDirname o) "obj" "abc")
        (pyReplace (osBasename o) ".obj" ".abc") ∧
    (export_asset_abc env s o r).madeDirs =
      (if env.dirExists (pyReplace (osDirname o) "obj" "abc") then []
       else [pyReplace (osDirname o) "obj" "abc"]) ∧
    (export_asset_abc env s o r).ret = (export_asset_abc env s o r).abcFile :=
  ⟨rfl, rfl, rfl⟩

/-- C10: the Alembic destination directory replaces every occurrence of the
substring `obj` in the obj file's directory path with `abc`, and on an asset
directory named `objects` the component is rewritten to `abcects`, which is
not the mirrored destination `/island/abc/objects`. -/
theorem c10_replace_rewrites_other_components :
    (∀ (env : Host) (s : Scene) (o r : String),
      (export_asset_abc env s o r).abcDir = pyReplace (osDirname o) "obj" "abc") ∧
    (export_asset_abc host0 emptyScene "/island/obj/objects/rock.obj" "r").abcDir =
      "/island/abc/abcects" ∧
    ("/island/abc/abcects" : String) ≠ "/island/abc/objects" :=
  ⟨fun _ _ _ _ => rfl, by decide, by decide⟩

/-- C7: per-asset processing is stateless across iterations — the whole run
from any obj file onward is independent of the scene accumulated earlier,
because `import_asset_obj` forces a new empty scene before importing. -/
theorem c7_stateless_loop (env : Host) (s1 s2 : Scene) (o : String) (objs : List String) :
    runAssets env s1 (o :: objs) = runAssets env s2 (o :: objs) ∧
    (∀ (s : Scene) (obj : String), (import_asset_obj env s obj).1 = importFile env emptyScene obj) :=
  ⟨rfl, fun _ _ => rfl⟩

/-- C5 counterexample: the sidecar path is not obtained by replacing the
`.obj` suffix — on an obj path whose directory also contains `.obj`, the
code rewrites that occurrence too, so the path the code opens differs from
the suffix-replacement path alongside the obj file. -/
theorem c5_counterexample :
    hierJsonPath "/island/obj/big.objects/rock.obj" ≠
      specHierSidecar "/island/obj/big.objects/rock.obj" ∧
    specHierSidecar "/island/obj/big.objects/rock.obj" =
      "/island/obj/big.objects/rock.hier" ∧
    hierJsonPath "/island/obj/big.objects/rock.obj" =
      "/island/obj/big.hierects/rock.hier" :=
  ⟨by decide, by decide, by decide⟩

/-- C5 amended: the hierarchy is reconstructed from the sidecar whose path
replaces every occurrence of `.obj` with `.hier` in the obj path (the suffix
replacement whenever `.obj` occurs only as the extension), and the rebuild
depends on the host only through the parsed JSON of that file. -/
theorem c5_sidecar_path (env env2 : Host) (s : Scene) (obj : String)
    (h : env.hierData (pyReplace obj ".obj" ".hier") =
      env2.hierData (pyReplace obj ".obj" ".hier")) :
    rebuild_asset_hierarchy env s obj = rebuild_asset_hierarchy env2 s obj ∧
    hierJsonPath obj = pyReplace obj ".obj" ".hier" := by
  refine ⟨?_, rfl⟩
  show rebuildFromData s (env.hierData (pyReplace obj ".obj" ".hier")) =
    rebuildFromData s (env2.hierData (pyReplace obj ".obj" ".hier"))
  rw [h]

/-- C5 witness: the amended statement instantiated on `envA`/`envB` at the
obj path `/x/a.obj`. -/
theorem c5_sidecar_path_witness :
    (envA.hierData (pyReplace "/x/a.obj" ".obj" ".hier") =
      envB.hierData (pyReplace "/x/a.obj" ".obj" ".hier")) ∧
    (rebuild_asset_hierarchy envA emptyScene "/x/a.obj" =
      rebuild_asset_hierarchy envB emptyScene "/x/a.obj" ∧
    hierJsonPath "/x/a.obj" = pyReplace "/x/a.obj" ".obj" ".hier") :=
  ⟨by decide, c5_sidecar_path envA envB emptyScene "/x/a.obj" (by decide)⟩

/-! ## Claim C9: empty mapping and last-entry root -/

theorem exists_getLast?_cons {α : Type} (a : α) (t : List α) :
    ∃ x, (a :: t).getLast? = some x := by
  induction t generalizing a with
  | nil => exact ⟨a, rfl⟩
  | cons b t2 ih =>
    obtain ⟨x, hx⟩ := ih b
    exact ⟨x, by rw [List.getLast?_cons_cons]; exact hx⟩

theorem processEntry_ok_root (s : Scene) (model hier : String) (out : List String)
    (s2 : Scene) (r : String) (h : processEntry s model hier = (out, .ok (s2, r))) :
    r = ((pySplitPipe hier).tail).headD "" := by
  unfold processEntry at h
  cases hl : (pySplitPipe hier).tail with
  | nil => rw [hl] at h; simp at h
  | cons a t =>
    rw [hl] at h
    dsimp only at h
    obtain ⟨x, hx⟩ := exists_getLast?_cons a t
    rw [hx, List.head?_cons] at h
    dsimp only at h
    split at h <;> split at h <;> simp_all

theorem rebuildLoop_ok_last (d : List (String × String)) :
    ∀ (s : Scene) (root : Option String) (acc out : List String) (s2 : Scene)
      (ro : Option String),
      rebuildLoop s root acc d = (out, .ok (s2, ro)) →
      (d = [] ∧ ro = root) ∨
      ∃ e, d.getLast? = some e ∧ ro = some (((pySplitPipe e.2).tail).headD "") := by
  induction d with
  | nil =>
    intro s root acc out s2 ro h
    left
    unfold rebuildLoop at h
    simp at h
    exact ⟨rfl, h.2.2.symm⟩
  | cons p rest ih =>
    intro s root acc out s2 ro h
    obtain ⟨model, hier⟩ := p
    unfold rebuildLoop at h
    cases hp : processEntry s model hier with
    | mk out1 exc =>
      rw [hp] at h
      cases exc with
      | error e => simp at h
      | ok pr =>
        obtain ⟨s1, r1⟩ := pr
        rcases ih s1 (some r1) (acc ++ out1) out s2 ro h with ⟨hrest, hro⟩ | ⟨e, hlast, hro⟩
        · subst hrest
          right
          refine ⟨(model, hier), rfl, ?_⟩
          rw [hro, processEntry_ok_root s model hier out1 s1 r1 hp]
        · right
          refine ⟨e, ?_, hro⟩
          cases rest with
          | nil => simp at hlast
          | cons q rest2 => rw [List.getLast?_cons_cons]; exact hlast

/-- C9: `rebuild_asset_hierarchy` raises `NameError` on an empty `.hier`
mapping (the loop body never binds `root_par_node`), and when it returns
normally the returned root is named by the first retained path element of
the entry the iteration yielded last. -/
theorem c9_empty_raises_and_last_entry_wins (s s2 : Scene) (d : List (String × String))
    (r : String) (out : List String)
    (h : rebuildFromData s d = (out, Except.ok (s2, r))) :
    rebuildFromData s [] = ([], Except.error PyExc.nameError) ∧
    ∃ e, d.getLast? = some e ∧ r = ((pySplitPipe e.2).tail).headD "" := by
  refine ⟨rfl, ?_⟩
  unfold rebuildFromData at h
  cases hr : rebuildLoop s none [] d with
  | mk out0 exc =>
    rw [hr] at h
    cases exc with
    | error e => simp at h
    | ok pr =>
      obtain ⟨s0, ro⟩ := pr
      cases ro with
      | none => simp at h
      | some r0 =>
        simp only [Prod.mk.injEq, Except.ok.injEq] at h
        rcases rebuildLoop_ok_last d s none [] out0 s0 (some r0) hr with ⟨-, hro⟩ | ⟨e, hlast, hro⟩
        · exact absurd hro (by simp)
        · refine ⟨e, hlast, ?_⟩
          rw [← h.2.2, Option.some_inj.mp hro]

/-- C9 witness: a one-entry mapping whose processing succeeds, instantiating
the theorem at that input. -/
theorem c9_witness :
    (rebuildFromData ⟨["A"], []⟩ [("m", "|A")] =
      ([modelMissingMsg], Except.ok (⟨["A"], []⟩, "A"))) ∧
    (rebuildFromData ⟨["A"], []⟩ [] = ([], Except.error PyExc.nameError) ∧
      ∃ e, [("m", "|A")].getLast? = some e ∧ "A" = ((pySplitPipe e.2).tail).headD "") :=
  ⟨by decide,
    c9_empty_raises_and_last_entry_wins ⟨["A"], []⟩ ⟨["A"], []⟩ [("m", "|A")] "A"
      [modelMissingMsg] (by decide)⟩

/-! ## Claim C2: obj discovery -/

theorem foldl_append_eq_bind {α β : Type} (f : α → List β) :
    ∀ (xs : List α) (acc : List β),
      xs.foldl (fun l a => l ++ f a) acc = acc ++ xs.flatMap f := by
  intro xs
  induction xs with
  | nil => intro acc; simp
  | cons x xs ih => intro acc; simp [ih, List.append_assoc]

theorem mem_insertStr (x y : String) (l : List String) :
    y ∈ insertStr x l ↔ y = x ∨ y ∈ l := by
  induction l with
  | nil => simp [insertStr]
  | cons a t ih =>
    unfold insertStr
    split
    · simp
    · simp [ih]
      tauto

theorem mem_pySorted (y : String) (l : List String) : y ∈ pySorted l ↔ y ∈ l := by
  induction l with
  | nil => simp [pySorted]
  | cons a t ih => simp [pySorted, mem_insertStr, ih]

theorem startsWithList_append (p : List Char) :
    ∀ (x z : List Char), startsWithList p x = true → startsWithList p (x ++ z) = true := by
  induction p with
  | nil => intro x z _; rfl
  | cons q ps ih =>
    intro x z h
    cases x with
    | nil => simp [startsWithList] at h
    | cons c cs =>
      simp only [startsWithList, List.cons_append, Bool.and_eq_true] at h ⊢
      exact ⟨h.1, ih cs z h.2⟩

theorem strEndsWith_append (a b pat : String) (h : strEndsWith b pat = true) :
    strEndsWith (a ++ b) pat = true := by
  unfold strEndsWith at h ⊢
  rw [strData_append, List.reverse_append]
  exact startsWithList_append _ _ _ h

theorem strEndsWith_osPathJoin (dir f pat : String) (h : strEndsWith f pat = true) :
    strEndsWith (osPathJoin dir f) pat = true := by
  unfold osPathJoin
  split
  · exact h
  · split
    · exact strEndsWith_append dir f pat h
    · exact strEndsWith_append (dir ++ "/") f pat h

/-- C2: `get_asset_objs` returns exactly the concatenation, over the entries
of `obj_dir` in listing order, of the sorted union of the `*.obj` globs of
each asset directory and of its `archives` subdirectory; every returned path
ends in `.obj` and comes from one of those two globs. -/
theorem c2_obj_discovery (env : Host) (d : String) :
    get_asset_objs env d =
      (env.entries d).flatMap (fun asset =>
        pySorted (globObjs env (osPathJoin d asset) ++
          globObjs env (osPathJoin (osPathJoin d asset) "archives"))) ∧
    ∀ f ∈ get_asset_objs env d,
      strEndsWith f ".obj" = true ∧
      ∃ asset ∈ env.entries d,
        f ∈ globObjs env (osPathJoin d asset) ∨
        f ∈ globObjs env (osPathJoin (osPathJoin d asset) "archives") := by
  have heq : get_asset_objs env d =
      (env.entries d).flatMap (fun asset =>
        pySorted (globObjs env (osPathJoin d asset) ++
          globObjs env (osPathJoin (osPathJoin d asset) "archives"))) := by
    unfold get_asset_objs
    simpa using foldl_append_eq_bind
      (fun asset =>
        pySorted (globObjs env (osPathJoin d asset) ++
          globObjs env (osPathJoin (osPathJoin d asset) "archives")))
      (env.entries d) []
  refine ⟨heq, ?_⟩
  intro f hf
  rw [heq, List.mem_flatMap] at hf
  obtain ⟨asset, ha, hfin⟩ := hf
  rw [mem_pySorted, List.mem_append] at hfin
  refine ⟨?_, asset, ha, hfin⟩
  have hend : ∀ dir : String, f ∈ globObjs env dir → strEndsWith f ".obj" = true := by
    intro dir hg
    obtain ⟨g, hg2, hge⟩ := List.mem_map.mp hg
    have hflt := (List.mem_filter.mp hg2).2
    rw [Bool.and_eq_true] at hflt
    rw [← hge]
    exact strEndsWith_osPathJoin dir g ".obj" hflt.1
  rcases hfin with hg | hg
  · exact hend _ hg
  · exact hend _ hg

/-- C2 witness: the discovery equality instantiated on a concrete listing
with an asset obj, an `archives` obj, and a non-obj file that is skipped. -/
theorem c2_obj_discovery_witness :
    ("d/asset1/archives/y.obj" ∈ get_asset_objs env0 "d") ∧
    (strEndsWith "d/asset1/archives/y.obj" ".obj" = true ∧
      ∃ asset ∈ env0.entries "d",
        "d/asset1/archives/y.obj" ∈ globObjs env0 (osPathJoin "d" asset) ∨
        "d/asset1/archives/y.obj" ∈ globObjs env0 (osPathJoin (osPathJoin "d" asset) "archives")) :=
  ⟨by decide, (c2_obj_discovery env0 "d").2 "d/asset1/archives/y.obj" (by decide)⟩

/-! ## Claims C1 and C8: hierarchy rebuild per entry -/

theorem getLast?_eq_getD {α : Type} (d : α) :
    ∀ (l : List α) (x : α), l.getLast? = some x → x = l.getD (l.length - 1) d := by
  intro l
  induction l with
  | nil => intro x h; simp at h
  | cons a t ih =>
    intro x h
    cases t with
    | nil => simp [List.getLast?_singleton] at h; simp [h]
    | cons b t2 =>
      rw [List.getLast?_cons_cons] at h
      simpa using ih x h

/-- C1: for an entry `(model, hier)` of the parsed `.hier` object, splitting
`hier` on `|` and discarding the first element yields `l`; provided the
retained elements are distinct, the model node exists in the scene, its name
is not among the path elements, and the path has at least two retained
elements, the entry is processed without printing: every element except the
first is parented under its immediately preceding element (looked up or
created as transforms), and finally the model node is parented under the
node named by the last path element; the returned root is named by the first
retained element. -/
theorem c1_rebuild_entry (s : Scene) (model hier : String) (l : List String)
    (hl : (pySplitPipe hier).tail = l)
    (hlen : 2 ≤ l.length)
    (hnd : l.Nodup)
    (hm : s.hasNode model = true)
    (hml : model ∉ l) :
    ∃ s2, processEntry s model hier = ([], Except.ok (s2, l.getD 0 "")) ∧
      (∀ i, 0 < i → i < l.length →
        s2.getParent (l.getD i "") = some (l.getD (i - 1) "")) ∧
      s2.getParent model = some (l.getD (l.length - 1) "") := by
  cases l with
  | nil => simp at hlen
  | cons a t =>
    unfold processEntry
    rw [hl]
    dsimp only
    obtain ⟨x, hx⟩ := exists_getLast?_cons a t
    have hx2 : x = (a :: t).getD ((a :: t).length - 1) "" := getLast?_eq_getD "" _ x hx
    rw [hx, List.head?_cons]
    dsimp only
    have hgo : rebuildInner s (a :: t) = goIdx (a :: t) (a :: t).length s :=
      rebuildInner_eq_goIdx s (a :: t)
    have hs1m : (rebuildInner s (a :: t)).hasNode model = true := by
      rw [hgo, hasNode_iff]
      exact nodes_goIdx_sub (a :: t) (a :: t).length s ((hasNode_iff s model).mp hm)
    have hs1x : (rebuildInner s (a :: t)).hasNode x = true := by
      rw [hgo, hasNode_iff, hx2]
      exact mem_nodes_goIdx_child (a :: t) (a :: t).length s ((a :: t).length - 1)
        (by simp at hlen ⊢; omega) (by simp)
    rw [if_pos (by rw [hs1m, hs1x]; rfl)]
    have hs2a : ((rebuildInner s (a :: t)).setParent model x).hasNode a = true := by
      rw [hasNode_setParent, hgo, hasNode_iff]
      have := mem_nodes_goIdx_par (a :: t) (a :: t).length s 1 (by omega)
        (by simp at hlen ⊢; omega)
      simpa using this
    rw [if_pos hs2a]
    refine ⟨(rebuildInner s (a :: t)).setParent model x, rfl, ?_, ?_⟩
    · intro i hi hilen
      have hne2 : ¬((a :: t).getD i "" = model) := by
        intro heq
        exact hml (heq ▸ getD_mem "" (a :: t) i hilen)
      rw [getParent_setParent, if_neg hne2, hgo]
      exact getParent_goIdx_elem (a :: t) hnd (a :: t).length (le_refl _) s i hi hilen
    · rw [getParent_setParent, if_pos rfl, hx2]

/-- C1 witness: entry `("m", "|A|B|C")` processed in a scene already holding
the imported model `m`, instantiating the theorem at that input. -/
theorem c1_rebuild_entry_witness :
    ((pySplitPipe "|A|B|C").tail = ["A", "B", "C"] ∧
      2 ≤ (["A", "B", "C"] : List String).length ∧
      (["A", "B", "C"] : List String).Nodup ∧
      Scene.hasNode ⟨["m"], []⟩ "m" = true ∧
      "m" ∉ (["A", "B", "C"] : List String)) ∧
    (∃ s2, processEntry ⟨["m"], []⟩ "m" "|A|B|C" =
        ([], Except.ok (s2, (["A", "B", "C"] : List String).getD 0 "")) ∧
      (∀ i, 0 < i → i < (["A", "B", "C"] : List String).length →
        s2.getParent ((["A", "B", "C"] : List String).getD i "") =
          some ((["A", "B", "C"] : List String).getD (i - 1) "")) ∧
      s2.getParent "m" =
        some ((["A", "B", "C"] : List String).getD
          ((["A", "B", "C"] : List String).length - 1) "")) :=
  ⟨⟨by decide, by decide, by decide, by decide, by decide⟩,
    c1_rebuild_entry ⟨["m"], []⟩ "m" "|A|B|C" ["A", "B", "C"]
      (by decide) (by decide) (by decide) (by decide) (by decide)⟩

/-- C8: when the model lookup or the lookup of the node named by the last
path element fails after the inner loop (the model is absent), the entry is
processed without raising: the message is printed once, the scene keeps
every node and link the inner loop created (no rollback), and processing
continues with the root lookup. -/
theorem c8_model_missing_branch (s : Scene) (model hier : String) (l : List String)
    (hl : (pySplitPipe hier).tail = l) (hne : l ≠ [])
    (hfail : ((rebuildInner s l).hasNode model &&
      (rebuildInner s l).hasNode (l.getD (l.length - 1) "")) = false)
    (hroot : (rebuildInner s l).hasNode (l.getD 0 "") = true) :
    processEntry s model hier =
      ([modelMissingMsg], Except.ok (rebuildInner s l, l.getD 0 "")) := by
  cases l with
  | nil => exact absurd rfl hne
  | cons a t =>
    unfold processEntry
    rw [hl]
    dsimp only
    obtain ⟨x, hx⟩ := exists_getLast?_cons a t
    have hx2 : x = (a :: t).getD ((a :: t).length - 1) "" := getLast?_eq_getD "" _ x hx
    rw [hx, List.head?_cons]
    dsimp only
    rw [hx2, hfail]
    simp only [Bool.false_eq_true, if_false]
    simp only [List.getD_cons_zero] at hroot
    rw [if_pos hroot]
    simp

/-- C8 witness: the theorem instantiated on an empty scene that lacks model
`m`, with path `|A|B`. -/
theorem c8_model_missing_branch_witness :
    ((pySplitPipe "|A|B").tail = ["A", "B"] ∧
      (["A", "B"] : List String) ≠ [] ∧
      ((rebuildInner ⟨[], []⟩ ["A", "B"]).hasNode "m" &&
        (rebuildInner ⟨[], []⟩ ["A", "B"]).hasNode
          ((["A", "B"] : List String).getD ((["A", "B"] : List String).length - 1) "")) = false ∧
      (rebuildInner ⟨[], []⟩ ["A", "B"]).hasNode ((["A", "B"] : List String).getD 0 "") = true) ∧
    processEntry ⟨[], []⟩ "m" "|A|B" =
      ([modelMissingMsg], Except.ok (rebuildInner ⟨[], []⟩ ["A", "B"],
        (["A", "B"] : List String).getD 0 "")) :=
  ⟨⟨by decide, by decide, by decide, by decide⟩,
    c8_model_missing_branch ⟨[], []⟩ "m" "|A|B" ["A", "B"]
      (by decide) (by decide) (by decide) (by decide)⟩

/-! ## Claim C4: three-phase loop order -/

theorem rebuildOk_ok (env : Host) (o : String) (h : rebuildOk env o = true) :
    ∃ out s2 root,
      rebuild_asset_hierarchy env (sceneAfterImport env o) o = (out, Except.ok (s2, root)) := by
  unfold rebuildOk at h
  cases hr : rebuild_asset_hierarchy env (sceneAfterImport env o) o with
  | mk out exc =>
    rw [hr] at h
    cases exc with
    | error e => simp at h
    | ok pr =>
      obtain ⟨s2, root⟩ := pr
      exact ⟨out, s2, root, rfl⟩

theorem runAssets_cons_ok (env : Host) (s : Scene) (o : String) (rest : List String)
    (out : List String) (s2 : Scene) (root : String)
    (hr : rebuild_asset_hierarchy env (sceneAfterImport env o) o = (out, Except.ok (s2, root))) :
    runAssets env s (o :: rest) =
      ⟨Event.imported o :: Event.rebuilt o root ::
        Event.exported o (export_asset_abc env s2 o root).abcFile ::
        (runAssets env s2 rest).events,
        (runAssets env s2 rest).final, (runAssets env s2 rest).err⟩ := by
  simp only [runAssets]
  have hsc : (import_asset_obj env s o).1 = sceneAfterImport env o := rfl
  rw [hsc, hr]

theorem assetEvents_ok (env : Host) (o : String)
    (out : List String) (s2 : Scene) (root : String)
    (hr : rebuild_asset_hierarchy env (sceneAfterImport env o) o = (out, Except.ok (s2, root))) :
    assetEvents env o = [Event.imported o, Event.rebuilt o root,
      Event.exported o (export_asset_abc env s2 o root).abcFile] := by
  unfold assetEvents
  rw [runAssets_cons_ok env emptyScene o [] out s2 root hr]
  rfl

theorem runAssets_events_flatMap (env : Host) :
    ∀ (objs : List String) (s : Scene), (∀ o ∈ objs, rebuildOk env o = true) →
      (runAssets env s objs).events = objs.flatMap (assetEvents env) := by
  intro objs
  induction objs with
  | nil => intro s _; rfl
  | cons o rest ih =>
    intro s h
    obtain ⟨out, s2, root, hr⟩ := rebuildOk_ok env o (h o (List.mem_cons_self o rest))
    rw [runAssets_cons_ok env s o rest out s2 root hr, List.flatMap_cons,
      assetEvents_ok env o out s2 root hr,
      ih s2 (fun q hq => h q (List.mem_cons_of_mem o hq))]
    rfl

/-- C4: the script is the three functions applied in sequence inside a flat
loop — for every obj file, the event trace of the top-level loop is, in
order, import, rebuild, export for that file, concatenated file after file
(provided no rebuild raises, since an uncaught exception aborts the
script). -/
theorem c4_three_phase_loop (env : Host) (s : Scene) (objs : List String)
    (h : ∀ o ∈ objs, rebuildOk env o = true) :
    (runAssets env s objs).events = objs.flatMap (assetEvents env) ∧
    ∀ o ∈ objs, ∃ root abc,
      assetEvents env o = [Event.imported o, Event.rebuilt o root, Event.exported o abc] := by
  refine ⟨runAssets_events_flatMap env objs s h, ?_⟩
  intro o ho
  obtain ⟨out, s2, root, hr⟩ := rebuildOk_ok env o (h o ho)
  exact ⟨root, (export_asset_abc env s2 o root).abcFile, assetEvents_ok env o out s2 root hr⟩

/-- C4 witness: the loop on a single obj file under a host where the rebuild
succeeds. -/
theorem c4_three_phase_loop_witness :
    (∀ o ∈ (["/x/a.obj"] : List String), rebuildOk envC4 o = true) ∧
    ((runAssets envC4 emptyScene ["/x/a.obj"]).events =
      (["/x/a.obj"] : List String).flatMap (assetEvents envC4) ∧
    ∀ o ∈ (["/x/a.obj"] : List String), ∃ root abc,
      assetEvents envC4 o = [Event.imported o, Event.rebuilt o root, Event.exported o abc]) :=
  ⟨by decide, c4_three_phase_loop envC4 emptyScene ["/x/a.obj"] (by decide)⟩
